import Mathlib

/-!
# Verification of the identity core of the Radar application

Shallow embedding of the authentication subsystem: `app/auth/models.py`,
`app/auth/services.py`, `app/auth/mfa.py`, `app/auth/routes.py`,
`app/utils/security.py`, `app/utils/validators.py`,
`app/utils/rate_limiting.py`.

Time is modelled as `Nat` seconds (Python `datetime.utcnow()` becomes an
explicit `now : Nat` argument).  Python strings are Lean `String`s; string
algorithms (`lower`, `strip`, `split`) are re-implemented structurally over
`List Char` so every definition evaluates inside the kernel.
-/

/-- Python dynamic values that can be stored in the `email` column: the code
assigns both strings and (through a bug in `register_user`) booleans to it. -/
inductive PyVal where
  | str (s : String)
  | bool (b : Bool)
deriving DecidableEq, Repr

/-- `UserRole` enumeration from `app/auth/models.py`. -/
inductive UserRole where
  | CEO
  | CFO
  | ADMIN
deriving DecidableEq, Repr

/-- The `.value` attribute of the Python enum members. -/
def UserRole.value : UserRole → String
  | .CEO => "CEO"
  | .CFO => "CFO"
  | .ADMIN => "Admin"

/-- Python `str.lower` (ASCII range, which covers all inputs used here). -/
def pyLower (s : String) : String := String.mk (s.data.map Char.toLower)

/-- Python `str.upper` (ASCII range). -/
def pyUpper (s : String) : String := String.mk (s.data.map Char.toUpper)

/-- Whitespace recognised by Python `str.strip`. -/
def isPySpace (c : Char) : Bool :=
  decide (c = ' ' ∨ c = '\t' ∨ c = '\n' ∨ c = '\r')

/-- Python `str.strip()`. -/
def pyStrip (s : String) : String :=
  String.mk (((s.data.dropWhile isPySpace).reverse.dropWhile isPySpace).reverse)

/-- Auxiliary worker for `splitOnChar`, structural over the character list. -/
def splitOnCharAux (sep : Char) : List Char → List Char → List String
  | [], acc => [String.mk acc.reverse]
  | c :: rest, acc =>
      if c = sep then String.mk acc.reverse :: splitOnCharAux sep rest []
      else splitOnCharAux sep rest (c :: acc)

/-- Python `str.split(sep)` for a one-character separator. -/
def splitOnChar (sep : Char) (s : String) : List String :=
  splitOnCharAux sep s.data []

/-- Python `sep.join(parts)` specialised to the comma separator. -/
def joinComma : List String → String
  | [] => ""
  | [x] => x
  | x :: y :: ys => x ++ "," ++ joinComma (y :: ys)

/-- Modelled from the spec: `werkzeug.security.generate_password_hash`, a
salted slow one-way password hash (the library is a dependency, not part of
`src/`); modelled as a deterministic injective tagged encoding. -/
def generate_password_hash (password : String) : String :=
  "pbkdf2-sha256$" ++ password

/-- Modelled from the spec: `werkzeug.security.check_password_hash`
re-derives the hash of the candidate and compares. -/
def check_password_hash (hash password : String) : Bool :=
  decide (hash = generate_password_hash password)

/-- Modelled from the spec: `hashlib.sha256(...).hexdigest ()`, a one-way
hash (dependency, not part of `src/`); modelled as an injective tagged
encoding (its output never contains a comma when its input does not). -/
def sha256_hexdigest (s : String) : String := "sha256$" ++ s

/-- The `users` table row from `app/auth/models.py` (`class User`):
columns that participate in authentication (relationship and
bookkeeping-timestamp columns are omitted). -/
structure User where
  id : String
  email : PyVal
  password_hash : Option String
  first_name : String
  last_name : String
  role : UserRole
  mfa_secret : Option String
  mfa_enabled : Bool
  backup_codes : Option String
  oauth_provider : Option String
  oauth_id : Option String
  oauth_token : Option String
  is_active : Bool
  is_verified : Bool
  failed_login_attempts : Nat
  locked_until : Option Nat
  last_login : Option Nat
  password_changed_at : Option Nat
deriving DecidableEq, Repr

/-- `User.set_password`: bcrypt-hash the plaintext and stamp the change. -/
def User.set_password (u : User) (password : String) (now : Nat) : User :=
  { u with password_hash := some (generate_password_hash password),
           password_changed_at := some now }

/-- `User.check_password`: `False` when no hash is stored, else verify. -/
def User.check_password (u : User) (password : String) : Bool :=
  match u.password_hash with
  | none => false
  | some h => check_password_hash h password

/-- `User.is_locked`: pure comparison of `now` against `locked_until`. -/
def User.is_locked (u : User) (now : Nat) : Bool :=
  match u.locked_until with
  | none => false
  | some t => decide (now < t)

/-- `User.lock_account`: set `locked_until` `duration_minutes` in the future
and reset the failed-login counter. -/
def User.lock_account (u : User) (now : Nat) (duration_minutes : Nat) : User :=
  { u with locked_until := some (now + duration_minutes * 60),
           failed_login_attempts := 0 }

/-- `User.record_failed_login`: increment the counter and lock (for the
default 15 minutes) once it reaches `max_attempts`. -/
def User.record_failed_login (u : User) (now : Nat) (max_attempts : Nat) : User :=
  let u1 : User := { u with failed_login_attempts := u.failed_login_attempts + 1 }
  if max_attempts ≤ u1.failed_login_attempts then u1.lock_account now 15 else u1

/-- `User.record_successful_login`: reset the counter, stamp the login and
clear the lock. -/
def User.record_successful_login (u : User) (now : Nat) : User :=
  { u with failed_login_attempts := 0, last_login := some now, locked_until := none }

/-- The `password_reset_tokens` table row from `app/auth/models.py`. -/
structure PasswordResetToken where
  id : String
  user_id : String
  token : String
  expires_at : Nat
  used : Bool
  created_at : Nat
deriving DecidableEq, Repr

/-- `PasswordResetToken.is_valid`: unused and not past expiry. -/
def PasswordResetToken.is_valid (t : PasswordResetToken) (now : Nat) : Bool :=
  if t.used then false
  else if t.expires_at < now then false
  else true

/-- `PasswordResetToken.mark_as_used`. -/
def PasswordResetToken.mark_as_used (t : PasswordResetToken) : PasswordResetToken :=
  { t with used := true }

/-- The relevant persistent store: the `users` and `password_reset_tokens`
tables. -/
structure Db where
  users : List User
  resetTokens : List PasswordResetToken
deriving DecidableEq, Repr

/-- Replace the first element satisfying `p` by its image under `f`
(SQLAlchemy mutates the single object returned by `query...first()`). -/
def replaceFirst (p : α → Bool) (f : α → α) : List α → List α
  | [] => []
  | x :: xs => if p x then f x :: xs else x :: replaceFirst p f xs

/-- `User.query.filter_by(email=...).first()` with the service-side
normalisation `email.strip().lower()` applied by the caller. -/
def find_user_by_email (db : Db) (email : PyVal) : Option User :=
  db.users.find? (fun u => decide (u.email = email))

/-- `AuthService.get_user_by_id`. -/
def get_user_by_id (db : Db) (uid : String) : Option User :=
  db.users.find? (fun u => decide (u.id = uid))

/-- Replace the (first) user with the given id by the updated record. -/
def updateUser (db : Db) (uid : String) (u' : User) : Db :=
  { db with users := replaceFirst (fun v => decide (v.id = uid)) (fun _ => u') db.users }

/-- The dynamic "Account is locked" message from
`AuthService.authenticate_user`. -/
def lockedMessage (minutes : Nat) : String :=
  "Account is locked. Please try again in " ++ toString minutes ++ " minutes."

/-- `AuthService.authenticate_user` from `app/auth/services.py`: lookup,
lock check, active check, password check with failure recording, then
success recording.  Returns the Python `(user, success, message)` triple
together with the updated store. -/
def authenticate_user (db : Db) (now : Nat) (email password : String) :
    (Option User × Bool × String) × Db :=
  let e := pyLower (pyStrip email)
  match find_user_by_email db (PyVal.str e) with
  | none => ((none, false, "Invalid email or password"), db)
  | some user =>
    if user.is_locked now then
      let remaining :=
        match user.locked_until with
        | some t => (t - now) / 60
        | none => 0
      ((none, false, lockedMessage remaining), db)
    else if ¬ user.is_active then
      ((none, false, "Account is deactivated. Please contact support."), db)
    else if ¬ user.check_password password then
      let u' := user.record_failed_login now 5
      ((none, false, "Invalid email or password"), updateUser db user.id u')
    else
      let u' := user.record_successful_login now
      ((some u', true, "Authentication successful"), updateUser db user.id u')

/-- `n` consecutive calls to `record_failed_login` with `max_attempts = 5`. -/
def failN (u : User) (now : Nat) : Nat → User
  | 0 => u
  | n + 1 => (failN u now n).record_failed_login now 5

/-- C1: after exactly 5 consecutive failed password checks with
`max_attempts = 5`, an account whose counter started at zero is locked with
`locked_until` 15 minutes in the future and the counter reset to zero; and
any login attempt for an account whose `locked_until` lies in the future
fails with the account-locked error, whatever password is supplied. -/
theorem lockout_after_five_failures (u : User) (now : Nat)
    (h0 : u.failed_login_attempts = 0) :
    (failN u now 5).locked_until = some (now + 15 * 60)
    ∧ (failN u now 5).failed_login_attempts = 0
    ∧ ∀ (db : Db) (email password : String) (v : User) (t : Nat),
        find_user_by_email db (PyVal.str (pyLower (pyStrip email))) = some v →
        v.locked_until = some t →
        now < t →
        (authenticate_user db now email password).fst.2.1 = false
          ∧ (authenticate_user db now email password).fst.1 = none
          ∧ (authenticate_user db now email password).fst.2.2
              = lockedMessage ((t - now) / 60) := by
  refine ⟨?_, ?_, ?_⟩
  · simp [failN, User.record_failed_login, User.lock_account, h0]
  · simp [failN, User.record_failed_login, User.lock_account, h0]
  · intro db email password v t hfind hlock hnow
    have hl : v.is_locked now = true := by
      simp [User.is_locked, hlock, hnow]
    simp [authenticate_user, hfind, hl, hlock]

/-- A concrete account used by the witnesses. -/
def lockSampleUser : User :=
  { id := "u1", email := PyVal.str "test@example.com",
    password_hash := some (generate_password_hash "TestPassword123!"),
    first_name := "T", last_name := "U", role := UserRole.CEO,
    mfa_secret := none, mfa_enabled := false, backup_codes := none,
    oauth_provider := none, oauth_id := none, oauth_token := none,
    is_active := true, is_verified := true,
    failed_login_attempts := 0, locked_until := none, last_login := none,
    password_changed_at := none }

/-- A store holding the (locked) concrete account. -/
def lockSampleDb : Db :=
  { users := [{ lockSampleUser with locked_until := some 2000 }], resetTokens := [] }

/-- Witness for `lockout_after_five_failures` at a concrete account, time
and store, with the correct password supplied while locked. -/
theorem lockout_after_five_failures_witness :
    (failN lockSampleUser 100 5).locked_until = some (100 + 15 * 60)
    ∧ (failN lockSampleUser 100 5).failed_login_attempts = 0
    ∧ (authenticate_user lockSampleDb 100 "test@example.com" "TestPassword123!").fst.2.1
        = false := by
  have h := lockout_after_five_failures lockSampleUser 100 (by decide)
  exact ⟨h.1, h.2.1,
    (h.2.2 lockSampleDb "test@example.com" "TestPassword123!"
      { lockSampleUser with locked_until := some 2000 } 2000
      (by decide) (by decide) (by decide)).1⟩

/-- ASCII alphabetic test (regex class `[a-zA-Z]`). -/
def isAsciiAlpha (c : Char) : Bool :=
  decide (('a' ≤ c ∧ c ≤ 'z') ∨ ('A' ≤ c ∧ c ≤ 'Z'))

/-- ASCII digit test (regex class `[0-9]`, `\d` on these inputs). -/
def isAsciiDigit (c : Char) : Bool := decide ('0' ≤ c ∧ c ≤ '9')

/-- Regex class `[a-zA-Z0-9._%+-]` (email local part). -/
def isLocalChar (c : Char) : Bool :=
  isAsciiAlpha c || isAsciiDigit c
    || decide (c = '.' ∨ c = '_' ∨ c = '%' ∨ c = '+' ∨ c = '-')

/-- Regex class `[a-zA-Z0-9.-]` (email domain part). -/
def isDomainChar (c : Char) : Bool :=
  isAsciiAlpha c || isAsciiDigit c || decide (c = '.' ∨ c = '-')

/-- Match of `[a-zA-Z0-9.-]+\.[a-zA-Z]\x7b2,\x7d$` against the domain part:
some split position carries a nonempty domain-class prefix, a dot and an
alphabetic tail of length at least two. -/
def domainTailMatch (dom : List Char) : Bool :=
  (List.range dom.length).any (fun i =>
    decide (dom.take i ≠ []) && (dom.take i).all isDomainChar
      && decide (dom.get? i = some '.')
      && decide (2 ≤ (dom.drop (i + 1)).length)
      && (dom.drop (i + 1)).all isAsciiAlpha)

/-- Match of the anchored email regex
`^[a-zA-Z0-9._%+-]+@[a-zA-Z0-9.-]+\.[a-zA-Z]\x7b2,\x7d$`: neither character
class contains `@`, so the string must split into exactly two parts there. -/
def email_regex_match (l : List Char) : Bool :=
  match splitOnCharAux '@' l [] with
  | [loc, dom] =>
      decide (loc.data ≠ []) && loc.data.all isLocalChar && domainTailMatch dom.data
  | _ => false

/-- `validate_email` from `app/utils/security.py`: returns a `Bool` (this is
the `validate_email` that `app/auth/services.py` imports). -/
def security_validate_email (email : String) : Bool :=
  if email = "" then false
  else email_regex_match (pyStrip email).data

/-- The deny-list of common passwords from `validate_password`. -/
def commonPasswords : List String := ["password", "123456", "qwerty", "abc123"]

/-- The special-character class of `validate_password`. -/
def specialChars : List Char :=
  ['!', '@', '#', '$', '%', '^', '&', '*', '(', ')', ',', '.', '?', '"',
   ':', '\x7b', '\x7d', '|', '<', '>']

/-- `validate_password` from `app/utils/validators.py`: minimum length 12,
one uppercase, one lowercase, one digit, one special character, and not on
the common-password deny-list; raises `ValidationError` otherwise. -/
def validate_password (password : String) : Except String String :=
  if password = "" then .error "Password is required and must be a string"
  else if password.data.length < 12 then
    .error "Password must be at least 12 characters long"
  else if ¬ password.data.any (fun c => decide ('A' ≤ c ∧ c ≤ 'Z')) then
    .error "Password must contain at least one uppercase letter"
  else if ¬ password.data.any (fun c => decide ('a' ≤ c ∧ c ≤ 'z')) then
    .error "Password must contain at least one lowercase letter"
  else if ¬ password.data.any isAsciiDigit then
    .error "Password must contain at least one digit"
  else if ¬ password.data.any (fun c => specialChars.contains c) then
    .error "Password must contain at least one special character"
  else if commonPasswords.contains (pyLower password) then
    .error "Password is too common. Please choose a stronger password"
  else .ok password

/-- `validate_role` from `app/utils/validators.py`. -/
def validate_role (role : String) : Except String String :=
  if role = "" then .error "Role is required and must be a string"
  else
    let r := pyStrip role
    if r = "CEO" ∨ r = "CFO" ∨ r = "Admin" then .ok r
    else .error ("Invalid role: " ++ r)

/-- Modelled from the spec: `sanitize_input` strips HTML via bleach (a
dependency not in `src/`); it is the identity on HTML-free text such as the
names used here. -/
def sanitize_input (data : String) : String := data

/-- Python `UserRole[role.upper()]`: lookup of an enum member by name. -/
def roleFromName (s : String) : Option UserRole :=
  if s = "CEO" then some UserRole.CEO
  else if s = "CFO" then some UserRole.CFO
  else if s = "ADMIN" then some UserRole.ADMIN
  else none

/-- `AuthService.register_user` from `app/auth/services.py`.  Faithful to
the source, including the slip on its first line: the local variable
`email` is rebound to the *boolean* returned by
`app.utils.security.validate_email`, so the duplicate check and the created
account use that boolean, and an invalid email does not abort registration
(the boolean version never raises).  `ValidationError` from the password and
role validators is not a `ValueError`, so it is caught by the generic
handler and reported as "An error occurred during registration". -/
def register_user (db : Db) (now : Nat)
    (newId email password first_name last_name role : String) :
    (Option User × Bool × String) × Db :=
  let emailVal : PyVal := PyVal.bool (security_validate_email (pyLower (pyStrip email)))
  match validate_password password with
  | .error _ => ((none, false, "An error occurred during registration"), db)
  | .ok _ =>
    match validate_role role with
    | .error _ => ((none, false, "An error occurred during registration"), db)
    | .ok _ =>
      let fn := sanitize_input (pyStrip first_name)
      let ln := sanitize_input (pyStrip last_name)
      match find_user_by_email db emailVal with
      | some _ => ((none, false, "User with this email already exists"), db)
      | none =>
        match roleFromName (pyUpper role) with
        | none => ((none, false, "An error occurred during registration"), db)
        | some r =>
          let u : User :=
            { id := newId, email := emailVal,
              password_hash := some (generate_password_hash password),
              first_name := fn, last_name := ln, role := r,
              mfa_secret := none, mfa_enabled := false, backup_codes := none,
              oauth_provider := none, oauth_id := none, oauth_token := none,
              is_active := true, is_verified := false,
              failed_login_attempts := 0, locked_until := none,
              last_login := none, password_changed_at := some now }
          ((some u, true, "User registered successfully"),
           { db with users := db.users ++ [u] })

/-- C2 (code bug): registering with the valid email `newuser@example.com`
and a strong password succeeds, but the created account's stored email is
the boolean `True` — not the case-normalised input email — because
`register_user` rebinds `email` to the boolean result of
`security.validate_email`; and a syntactically invalid email does not
prevent account creation at all (the account is stored with email
`False`). -/
theorem register_stores_bool_email :
    ((register_user (Db.mk [] []) 0 "u1" "newuser@example.com"
        "SecurePassword123!" "New" "User" "CEO").fst.2.1 = true)
    ∧ ((register_user (Db.mk [] []) 0 "u1" "newuser@example.com"
        "SecurePassword123!" "New" "User" "CEO").snd.users.map User.email
          = [PyVal.bool true])
    ∧ ((register_user (Db.mk [] []) 0 "u1" "newuser@example.com"
        "SecurePassword123!" "New" "User" "CEO").snd.users.map User.email
          ≠ [PyVal.str "newuser@example.com"])
    ∧ ((register_user (Db.mk [] []) 0 "u2" "notanemail"
        "SecurePassword123!" "N" "U" "CEO").fst.2.1 = true)
    ∧ ((register_user (Db.mk [] []) 0 "u2" "notanemail"
        "SecurePassword123!" "N" "U" "CEO").snd.users.map User.email
          = [PyVal.bool false]) := by decide

/-- Modelled from the spec: `cryptography.fernet.Fernet` encryption (a
dependency, not in `src/`) — symmetric authenticated encryption under a
process-wide key.  Modelled as an ideal authenticated cipher: the
ciphertext is a tagged encoding that `fernet_decrypt` accepts only under
the producing key. -/
def fernet_encrypt (key : Nat) (data : String) : String :=
  String.mk ('g' :: (List.replicate key 'x' ++ '|' :: data.data))

/-- Modelled from the spec: `Fernet.decrypt`, which authenticates before
decrypting and raises on a wrong key or malformed token. -/
def fernet_decrypt (key : Nat) (ct : String) : Option String :=
  match ct.data with
  | c :: rest =>
      if c = 'g' then
        if rest.takeWhile (fun a => a == 'x') = List.replicate key 'x' then
          match rest.dropWhile (fun a => a == 'x') with
          | d :: ds => if d = '|' then some (String.mk ds) else none
          | [] => none
        else none
      else none
  | [] => none

/-- `SecurityManager.encrypt` from `app/utils/security.py` (the input is
always a string here, so the type guard never fires). -/
def SecurityManager.encrypt (key : Nat) (data : String) : String :=
  fernet_encrypt key data

/-- `SecurityManager.decrypt` from `app/utils/security.py`: any failure of
the underlying cipher is re-raised as `ValueError("Decryption failed: ...")`. -/
def SecurityManager.decrypt (key : Nat) (encrypted_data : String) : Except String String :=
  match fernet_decrypt key encrypted_data with
  | some s => .ok s
  | none => .error "Decryption failed"

theorem takeWhile_x_replicate (k : Nat) (d : List Char) :
    (List.replicate k 'x' ++ '|' :: d).takeWhile (fun a => a == 'x')
      = List.replicate k 'x' := by
  induction k with
  | zero => simp [List.takeWhile_cons]
  | succ n ih => simp only [List.replicate_succ, List.cons_append, List.takeWhile_cons]; simp [ih]

theorem dropWhile_x_replicate (k : Nat) (d : List Char) :
    (List.replicate k 'x' ++ '|' :: d).dropWhile (fun a => a == 'x') = '|' :: d := by
  induction k with
  | zero => simp [List.dropWhile_cons]
  | succ n ih => simp only [List.replicate_succ, List.cons_append, List.dropWhile_cons]; simp [ih]

theorem fernet_decrypt_encrypt (k : Nat) (x : String) :
    fernet_decrypt k (fernet_encrypt k x) = some x := by
  show fernet_decrypt k (String.mk ('g' :: (List.replicate k 'x' ++ '|' :: x.data))) = some x
  simp [fernet_decrypt, takeWhile_x_replicate, dropWhile_x_replicate]

theorem fernet_decrypt_wrong_key (k k2 : Nat) (x : String) (hk : k2 ≠ k) :
    fernet_decrypt k2 (fernet_encrypt k x) = none := by
  show fernet_decrypt k2 (String.mk ('g' :: (List.replicate k 'x' ++ '|' :: x.data))) = none
  have hne : ¬ (List.replicate k 'x' = List.replicate k2 'x') := by
    intro h
    have hlen : k = k2 := by simpa using congrArg List.length h
    exact hk hlen.symm
  simp only [fernet_decrypt, takeWhile_x_replicate, if_true]
  simp [hne]

theorem fernet_decrypt_ok_inv (k : Nat) (ct y : String)
    (h : fernet_decrypt k ct = some y) : ct = fernet_encrypt k y := by
  obtain ⟨l⟩ := ct
  cases l with
  | nil => simp [fernet_decrypt] at h
  | cons c rest =>
    simp only [fernet_decrypt] at h
    by_cases hc : c = 'g'
    · rw [if_pos hc] at h
      by_cases htw : rest.takeWhile (fun a => a == 'x') = List.replicate k 'x'
      · rw [if_pos htw] at h
        cases hdw : rest.dropWhile (fun a => a == 'x') with
        | nil => rw [hdw] at h; exact absurd h (by simp)
        | cons d ds =>
          rw [hdw] at h
          dsimp only at h
          by_cases hd : d = '|'
          · rw [if_pos hd] at h
            have hy : y = String.mk ds := by
              cases h; rfl
            have hrest : rest = List.replicate k 'x' ++ '|' :: ds := by
              have := List.takeWhile_append_dropWhile (p := fun a => a == 'x') (l := rest)
              rw [htw, hdw, hd] at this
              exact this.symm
            subst hy hc hd
            simp [fernet_encrypt, hrest]
          · rw [if_neg hd] at h; exact absurd h (by simp)
      · rw [if_neg htw] at h; exact absurd h (by simp)
    · rw [if_neg hc] at h; exact absurd h (by simp)

/-- C4: for every plaintext `x`, decrypting `encrypt x` under the same key
returns `x`; decrypting under any different key fails with the decryption
error; and decryption only ever returns a plaintext whose honest encryption
under that key is exactly the given ciphertext — a tampered ciphertext (one
that is not an encryption under the key) always fails closed. -/
theorem encrypt_decrypt_roundtrip (k k2 : Nat) (x : String) (hk : k2 ≠ k) :
    SecurityManager.decrypt k (SecurityManager.encrypt k x) = .ok x
    ∧ SecurityManager.decrypt k2 (SecurityManager.encrypt k x) = .error "Decryption failed"
    ∧ ∀ ct y, SecurityManager.decrypt k ct = .ok y → ct = SecurityManager.encrypt k y := by
  refine ⟨?_, ?_, ?_⟩
  · simp [SecurityManager.decrypt, SecurityManager.encrypt, fernet_decrypt_encrypt]
  · simp [SecurityManager.decrypt, SecurityManager.encrypt,
      fernet_decrypt_wrong_key k k2 x hk]
  · intro ct y h
    have : fernet_decrypt k ct = some y := by
      cases hd : fernet_decrypt k ct with
      | none => simp [SecurityManager.decrypt, hd] at h
      | some s =>
        simp only [SecurityManager.decrypt, hd] at h
        cases h; rfl
    exact fernet_decrypt_ok_inv k ct y this

/-- Witness for `encrypt_decrypt_roundtrip` with keys 1 and 2 and a
concrete plaintext. -/
theorem encrypt_decrypt_roundtrip_witness :
    SecurityManager.decrypt 1 (SecurityManager.encrypt 1 "JBSWY3DPEHPK3PXP") = .ok "JBSWY3DPEHPK3PXP"
    ∧ SecurityManager.decrypt 2 (SecurityManager.encrypt 1 "JBSWY3DPEHPK3PXP")
        = .error "Decryption failed" := by
  have h := encrypt_decrypt_roundtrip 1 2 "JBSWY3DPEHPK3PXP" (by decide)
  exact ⟨h.1, h.2.1⟩

/-- Unary, sign-distinguishing encoding of a time step; injective by
construction. -/
def intChars : Int → List Char
  | Int.ofNat n => List.replicate n 'x'
  | Int.negSucc n => '-' :: List.replicate n 'x'

/-- Modelled from the spec: the TOTP code derived from a shared secret and
a 30-second time step (pyotp, a dependency not in `src/`).  Real codes are
6 digits; the model makes the code an injective function of the secret and
the step, ignoring the negligible cross-step code collisions. -/
def totp_at (secret : String) (step : Int) : String :=
  String.mk (secret.data ++ '#' :: intChars step)

/-- The time steps compared by pyotp `TOTP.verify(code, valid_window=w)`:
`timecode - w` up to `timecode + w`. -/
def candidateSteps (nowStep : Int) (w : Nat) : List Int :=
  (List.range (2 * w + 1)).map (fun k => nowStep - (w : Int) + k)

/-- Modelled from the spec: pyotp `TOTP.verify` with a tolerance window. -/
def totp_verify (secret code : String) (nowStep : Int) (w : Nat) : Bool :=
  (candidateSteps nowStep w).any (fun st => decide (code = totp_at secret st))

theorem intChars_inj (i j : Int) (h : intChars i = intChars j) : i = j := by
  cases i with
  | ofNat m =>
    cases j with
    | ofNat n =>
      have hl := congrArg List.length h
      simp [intChars] at hl
      exact congrArg Int.ofNat hl
    | negSucc n =>
      exfalso
      cases m with
      | zero => simp [intChars] at h
      | succ m' => simp [intChars, List.replicate_succ] at h
  | negSucc m =>
    cases j with
    | ofNat n =>
      exfalso
      cases n with
      | zero => simp [intChars] at h
      | succ n' => simp [intChars, List.replicate_succ] at h
    | negSucc n =>
      have hl := congrArg List.length h
      simp [intChars] at hl
      exact congrArg Int.negSucc hl

theorem totp_at_inj (secret : String) (i j : Int)
    (h : totp_at secret i = totp_at secret j) : i = j := by
  have h' : secret.data ++ '#' :: intChars i = secret.data ++ '#' :: intChars j :=
    congrArg String.data h
  have h2 := List.append_cancel_left h'
  exact intChars_inj i j (by injection h2)

theorem candidateSteps_one (S : Int) : candidateSteps S 1 = [S - 1, S, S + 1] := by
  simp only [candidateSteps]
  norm_num [List.range_succ]
  omega

theorem totp_verify_window (secret : String) (T S : Int) :
    totp_verify secret (totp_at secret T) S 1 = true ↔ (S - 1 ≤ T ∧ T ≤ S + 1) := by
  rw [totp_verify, candidateSteps_one]
  simp only [List.any_eq_true, decide_eq_true_eq]
  constructor
  · rintro ⟨st, hst, heq⟩
    have hEq := totp_at_inj secret T st heq
    subst hEq
    simp only [List.mem_cons, List.not_mem_nil, or_false] at hst
    rcases hst with h | h | h <;> omega
  · intro hw
    refine ⟨T, ?_, rfl⟩
    simp only [List.mem_cons]
    omega

/-- Hex digit for a value below 16 (Python `hex` alphabet, lowercase). -/
def hexDigit (n : Nat) : Char :=
  if n < 10 then Char.ofNat (48 + n) else Char.ofNat (87 + n)

/-- Modelled from the spec: `secrets.token_hex(4)` — cryptographically
random bytes rendered as lowercase hex, two characters per byte; the random
byte source is a parameter of the embedding. -/
def token_hex (bytes : List Nat) : String :=
  String.mk (bytes.foldr (fun b acc => hexDigit (b / 16 % 16) :: hexDigit (b % 16) :: acc) [])

/-- `MFAService.generate_backup_codes` from `app/auth/mfa.py`: `count`
draws of `secrets.token_hex(4).upper()`. -/
def generate_backup_codes (rng : Nat → List Nat) (count : Nat) : List String :=
  (List.range count).map (fun i => pyUpper (token_hex (rng i)))

/-- Result of `MFAService.enable_mfa` (the Python function returns either
`(True, codes)` or `(False, message)`). -/
inductive EnableMfaResult where
  | codes (backup_codes : List String)
  | failure (msg : String)
deriving DecidableEq, Repr

/-- `MFAService.enable_mfa` from `app/auth/mfa.py`: verify the TOTP code
with `valid_window=1`, then persist the encrypted seed and the hashes of
ten fresh backup codes, returning the plaintext codes once. -/
def enable_mfa (key : Nat) (rng : Nat → List Nat) (u : User)
    (secret verification_code : String) (nowStep : Int) : EnableMfaResult × User :=
  if ¬ totp_verify secret verification_code nowStep 1 then
    (.failure "Invalid verification code", u)
  else
    let encrypted_secret := SecurityManager.encrypt key secret
    let backup_codes := generate_backup_codes rng 10
    let hashed_codes := backup_codes.map sha256_hexdigest
    (.codes backup_codes,
     { u with mfa_secret := some encrypted_secret, mfa_enabled := true,
              backup_codes := some (joinComma hashed_codes) })

/-- `MFAService.verify_mfa_code` from `app/auth/mfa.py`: requires MFA
enabled with a stored secret, decrypts the seed (any decryption failure is
swallowed into `False`), tries the TOTP check with `valid_window=1` first,
then falls back to the hashed backup-code set, removing a match
(exactly-once consumption; an emptied set is stored as `None`). -/
def verify_mfa_code (key : Nat) (nowStep : Int) (u : User) (code : String) :
    Bool × User :=
  if ¬ u.mfa_enabled then (false, u)
  else
    match u.mfa_secret with
    | none => (false, u)
    | some enc =>
      match fernet_decrypt key enc with
      | none => (false, u)
      | some secret =>
        if totp_verify secret code nowStep 1 then (true, u)
        else
          match u.backup_codes with
          | none => (false, u)
          | some s =>
            if s = "" then (false, u)
            else
              let hashed_input := sha256_hexdigest code
              let codes := splitOnChar ',' s
              if hashed_input ∈ codes then
                let rest := codes.erase hashed_input
                (true, { u with backup_codes :=
                    if rest = [] then none else some (joinComma rest) })
              else (false, u)

theorem splitOnCharAux_no_sep (sep : Char) (cs : List Char) (h : sep ∉ cs) :
    ∀ acc, splitOnCharAux sep cs acc = [String.mk (acc.reverse ++ cs)] := by
  induction cs with
  | nil => intro acc; simp [splitOnCharAux]
  | cons c rest ih =>
    intro acc
    simp only [List.mem_cons, not_or] at h
    have hc : ¬ c = sep := fun hh => h.1 hh.symm
    simp only [splitOnCharAux, if_neg hc]
    rw [ih h.2 (c :: acc)]
    simp

theorem splitOnCharAux_sep_split (sep : Char) (cs ds : List Char) (h : sep ∉ cs) :
    ∀ acc, splitOnCharAux sep (cs ++ sep :: ds) acc
      = String.mk (acc.reverse ++ cs) :: splitOnCharAux sep ds [] := by
  induction cs with
  | nil => intro acc; simp [splitOnCharAux]
  | cons c rest ih =>
    intro acc
    simp only [List.mem_cons, not_or] at h
    have hc : ¬ c = sep := fun hh => h.1 hh.symm
    simp only [List.cons_append, splitOnCharAux, if_neg hc, List.append_eq]
    rw [ih h.2 (c :: acc)]
    simp

theorem string_data_append (a b : String) : (a ++ b).data = a.data ++ b.data := rfl

theorem splitOnChar_joinComma (l : List String) (hne : l ≠ [])
    (h : ∀ x ∈ l, ',' ∉ x.data) : splitOnChar ',' (joinComma l) = l := by
  induction l with
  | nil => exact absurd rfl hne
  | cons x ys ih =>
    cases ys with
    | nil =>
      show splitOnCharAux ',' (joinComma [x]).data [] = [x]
      have hx : (joinComma [x]).data = x.data := rfl
      rw [hx, splitOnCharAux_no_sep ',' x.data (h x (by simp)) []]
      simp
    | cons y zs =>
      show splitOnCharAux ',' (joinComma (x :: y :: zs)).data [] = x :: y :: zs
      have hdata : (joinComma (x :: y :: zs)).data
          = x.data ++ ',' :: (joinComma (y :: zs)).data := by
        show (x ++ "," ++ joinComma (y :: zs)).data = _
        rw [string_data_append, string_data_append]
        simp
      rw [hdata, splitOnCharAux_sep_split ',' x.data _ (h x (by simp)) []]
      have hx : String.mk ([].reverse ++ x.data) = x := by simp
      rw [hx]
      have htail := ih (by simp) (fun z hz => h z (by simp [hz]))
      exact congrArg (x :: ·) htail

/-- C3: for an MFA-enabled account whose stored backup-code set contains
the hash of a code, verifying with that code (when the TOTP check fails for
it) succeeds and removes the hash from the stored set, and an immediately
repeated verification with the same code fails: each backup code is
consumed exactly once. -/
theorem backup_code_single_use (key : Nat) (nowStep : Int) (u : User)
    (secret bc s : String) (l : List String)
    (hen : u.mfa_enabled = true)
    (hsec : u.mfa_secret = some (fernet_encrypt key secret))
    (hbc : u.backup_codes = some s)
    (hsne : ¬ s = "")
    (hsplit : splitOnChar ',' s = l)
    (hmem : sha256_hexdigest bc ∈ l)
    (hnodup : l.Nodup)
    (hnc : ∀ x ∈ l, ',' ∉ x.data)
    (htotp : totp_verify secret bc nowStep 1 = false) :
    (verify_mfa_code key nowStep u bc).fst = true
    ∧ (verify_mfa_code key nowStep u bc).snd.backup_codes
        = (if l.erase (sha256_hexdigest bc) = [] then none
           else some (joinComma (l.erase (sha256_hexdigest bc))))
    ∧ (verify_mfa_code key nowStep (verify_mfa_code key nowStep u bc).snd bc).fst
        = false := by
  have h1 : verify_mfa_code key nowStep u bc
      = (true, { u with backup_codes :=
          (if l.erase (sha256_hexdigest bc) = [] then none
           else some (joinComma (l.erase (sha256_hexdigest bc)))) }) := by
    simp only [verify_mfa_code, hen, hsec, fernet_decrypt_encrypt, htotp, hbc, hsplit]
    simp [hsne, hmem]
  refine ⟨by rw [h1], by rw [h1], ?_⟩
  rw [h1]
  have hmem2 : sha256_hexdigest bc ∉ l.erase (sha256_hexdigest bc) := by
    intro hx
    exact ((List.Nodup.mem_erase_iff hnodup).1 hx).1 rfl
  by_cases hr0 : l.erase (sha256_hexdigest bc) = []
  · rw [if_pos hr0]
    simp [verify_mfa_code, hen, hsec, fernet_decrypt_encrypt, htotp]
  · rw [if_neg hr0]
    by_cases hjoin : joinComma (l.erase (sha256_hexdigest bc)) = ""
    · simp [verify_mfa_code, hen, hsec, fernet_decrypt_encrypt, htotp, hjoin]
    · have hsplit2 : splitOnChar ',' (joinComma (l.erase (sha256_hexdigest bc)))
          = l.erase (sha256_hexdigest bc) :=
        splitOnChar_joinComma _ hr0
          (fun x hx => hnc x (List.erase_subset _ _ hx))
      simp [verify_mfa_code, hen, hsec, fernet_decrypt_encrypt, htotp, hjoin,
        hsplit2, hmem2]

/-- C7: a TOTP code generated at step `T` is accepted exactly when the
verifier's current step is `T-1`, `T` or `T+1` — both by `enable_mfa` and
by `verify_mfa_code` (for an account with no backup codes stored, so that
only the TOTP path can accept). -/
theorem totp_window_tolerance (secret : String) (T S : Int) (key : Nat)
    (rng : Nat → List Nat) (u v : User)
    (hen : v.mfa_enabled = true)
    (hsec : v.mfa_secret = some (fernet_encrypt key secret))
    (hbc : v.backup_codes = none) :
    ((enable_mfa key rng u secret (totp_at secret T) S).fst
        = EnableMfaResult.codes (generate_backup_codes rng 10)
      ↔ (S - 1 ≤ T ∧ T ≤ S + 1))
    ∧ ((verify_mfa_code key S v (totp_at secret T)).fst = true
      ↔ (S - 1 ≤ T ∧ T ≤ S + 1)) := by
  have hvw := totp_verify_window secret T S
  by_cases hb : totp_verify secret (totp_at secret T) S 1 = true
  · constructor
    · simp [enable_mfa, hb, hvw.mp hb]
    · simp [verify_mfa_code, hen, hsec, fernet_decrypt_encrypt, hb, hvw.mp hb]
  · have hb' : totp_verify secret (totp_at secret T) S 1 = false := by
      simpa using hb
    have hnw : ¬ (S - 1 ≤ T ∧ T ≤ S + 1) := fun hw => hb (hvw.mpr hw)
    constructor
    · simp [enable_mfa, hb']
      omega
    · simp [verify_mfa_code, hen, hsec, fernet_decrypt_encrypt, hb', hbc]
      omega

theorem token_hex_length (bytes : List Nat) :
    (token_hex bytes).data.length = 2 * bytes.length := by
  induction bytes with
  | nil => rfl
  | cons b bs ih =>
    show (hexDigit (b / 16 % 16) :: hexDigit (b % 16) :: (token_hex bs).data).length
      = 2 * (b :: bs).length
    simp only [List.length_cons, ih]
    omega

theorem hexUpper_ok : ∀ m, m < 16 →
    (('A' ≤ Char.toUpper (hexDigit m) ∧ Char.toUpper (hexDigit m) ≤ 'Z')
      ∨ ('0' ≤ Char.toUpper (hexDigit m) ∧ Char.toUpper (hexDigit m) ≤ '9')) := by
  decide

theorem token_hex_chars (bytes : List Nat) :
    ∀ ch ∈ (token_hex bytes).data, ∃ m, m < 16 ∧ ch = hexDigit m := by
  induction bytes with
  | nil => intro ch hch; simp [token_hex] at hch
  | cons b bs ih =>
    intro ch hch
    have hch' : ch ∈ hexDigit (b / 16 % 16) :: hexDigit (b % 16) :: (token_hex bs).data :=
      hch
    rcases List.mem_cons.1 hch' with h | hch2
    · exact ⟨b / 16 % 16, Nat.mod_lt _ (by norm_num), h⟩
    · rcases List.mem_cons.1 hch2 with h | hch3
      · exact ⟨b % 16, Nat.mod_lt _ (by norm_num), h⟩
      · exact ih ch hch3

theorem pyUpper_chars (s : String) (ch : Char) (hch : ch ∈ (pyUpper s).data) :
    ∃ c ∈ s.data, ch = Char.toUpper c := by
  simp only [pyUpper, List.mem_map] at hch
  obtain ⟨c, hc, rfl⟩ := hch
  exact ⟨c, hc, rfl⟩

/-- C9: a successful MFA enablement returns exactly the ten generated
backup codes, each 8 characters long and drawn from the uppercase
alphanumeric alphabet, and persists on the account only the comma-joined
one-way hashes of those codes (the plaintext codes are only returned, and
the seed is persisted encrypted). -/
theorem mfa_enable_backup_codes (key : Nat) (rng : Nat → List Nat) (u : User)
    (secret code : String) (S : Int)
    (hlen : ∀ i, (rng i).length = 4)
    (hv : totp_verify secret code S 1 = true) :
    (enable_mfa key rng u secret code S).fst
      = EnableMfaResult.codes (generate_backup_codes rng 10)
    ∧ (generate_backup_codes rng 10).length = 10
    ∧ (∀ c ∈ generate_backup_codes rng 10, c.data.length = 8
        ∧ ∀ ch ∈ c.data, (('A' ≤ ch ∧ ch ≤ 'Z') ∨ ('0' ≤ ch ∧ ch ≤ '9')))
    ∧ (enable_mfa key rng u secret code S).snd.backup_codes
        = some (joinComma ((generate_backup_codes rng 10).map sha256_hexdigest))
    ∧ (enable_mfa key rng u secret code S).snd.mfa_secret
        = some (SecurityManager.encrypt key secret) := by
  refine ⟨by simp [enable_mfa, hv], by simp [generate_backup_codes], ?_,
    by simp [enable_mfa, hv], by simp [enable_mfa, hv]⟩
  intro c hc
  simp only [generate_backup_codes, List.mem_map] at hc
  obtain ⟨i, hi, rfl⟩ := hc
  constructor
  · have h8 : (token_hex (rng i)).data.length = 8 := by
      rw [token_hex_length, hlen i]
    show (String.mk ((token_hex (rng i)).data.map Char.toUpper)).data.length = 8
    simpa using h8
  · intro ch hch
    obtain ⟨c0, hc0, rfl⟩ := pyUpper_chars _ ch hch
    obtain ⟨m, hm, rfl⟩ := token_hex_chars _ c0 hc0
    exact hexUpper_ok m hm

/-- A concrete random-byte source for the witnesses. -/
def wRng : Nat → List Nat := fun _ => [0, 1, 171, 240]

/-- A concrete MFA-enabled account holding two hashed backup codes. -/
def mfaSampleUser : User :=
  { lockSampleUser with
    mfa_enabled := true,
    mfa_secret := some (fernet_encrypt 1 "SEC"),
    backup_codes :=
      some (joinComma [sha256_hexdigest "ABCD1234", sha256_hexdigest "EF567890"]) }

/-- A concrete MFA-enabled account with no backup codes stored. -/
def totpSampleUser : User :=
  { lockSampleUser with
    mfa_enabled := true,
    mfa_secret := some (fernet_encrypt 1 "SEC"),
    backup_codes := none }

/-- Witness for `backup_code_single_use` at a concrete account and code. -/
theorem backup_code_single_use_witness :
    (verify_mfa_code 1 100 mfaSampleUser "ABCD1234").fst = true
    ∧ (verify_mfa_code 1 100
        (verify_mfa_code 1 100 mfaSampleUser "ABCD1234").snd "ABCD1234").fst
        = false := by
  have h := backup_code_single_use 1 100 mfaSampleUser "SEC" "ABCD1234"
    (joinComma [sha256_hexdigest "ABCD1234", sha256_hexdigest "EF567890"])
    [sha256_hexdigest "ABCD1234", sha256_hexdigest "EF567890"]
    rfl rfl rfl (by decide) (by decide) (by decide) (by decide) (by decide)
    (by decide)
  exact ⟨h.1, h.2.2⟩

/-- Witness for `totp_window_tolerance`: a code generated at step 5 checked
by a verifier at step 6. -/
theorem totp_window_tolerance_witness :
    ((enable_mfa 1 wRng lockSampleUser "SEC" (totp_at "SEC" 5) 6).fst
        = EnableMfaResult.codes (generate_backup_codes wRng 10)
      ↔ ((6 : Int) - 1 ≤ 5 ∧ (5 : Int) ≤ 6 + 1))
    ∧ ((verify_mfa_code 1 6 totpSampleUser (totp_at "SEC" 5)).fst = true
      ↔ ((6 : Int) - 1 ≤ 5 ∧ (5 : Int) ≤ 6 + 1)) :=
  totp_window_tolerance "SEC" 5 6 1 wRng lockSampleUser totpSampleUser rfl rfl rfl

/-- Witness for `mfa_enable_backup_codes` at a concrete seed, code and
byte source. -/
theorem mfa_enable_backup_codes_witness :
    (enable_mfa 1 wRng lockSampleUser "SEC" (totp_at "SEC" 7) 7).fst
      = EnableMfaResult.codes (generate_backup_codes wRng 10)
    ∧ (generate_backup_codes wRng 10).length = 10 := by
  have h := mfa_enable_backup_codes 1 wRng lockSampleUser "SEC" (totp_at "SEC" 7) 7
    (fun i => rfl) (by decide)
  exact ⟨h.1, h.2.1⟩

/-- State of one fixed-window Redis counter key: the stored count and the
absolute expiry time set by `EXPIRE`. -/
structure FixedWindowState where
  count : Nat
  expireAt : Nat
deriving DecidableEq, Repr

/-- Redis `GET` on the counter key: the key is gone once its TTL elapsed. -/
def redis_get_count (st : Option FixedWindowState) (now : Nat) : Option Nat :=
  match st with
  | none => none
  | some s => if now < s.expireAt then some s.count else none

/-- The `count` local of `RateLimiter._fixed_window`: the stored value, or
0 when the key is absent (or expired). -/
def preCount (st : Option FixedWindowState) (now : Nat) : Nat :=
  match redis_get_count st now with
  | none => 0
  | some c => c

/-- `RateLimiter._fixed_window` from `app/utils/rate_limiting.py`: the
Redis key is `ratelimit:fixed:{subject}` — the window boundary is computed
only for the `reset_time` in the response, not used in the key.  A denied
request returns before touching Redis; an allowed request increments the
counter and re-arms the TTL to a full window. -/
def fixed_window (st : Option FixedWindowState) (now : Nat)
    (max_requests window_seconds : Nat) : (Bool × Nat × Nat) × Option FixedWindowState :=
  let window_start := now - now % window_seconds
  let count := preCount st now
  if max_requests ≤ count then
    ((false, 0, window_start + window_seconds), st)
  else
    ((true, max_requests - count - 1, window_start + window_seconds),
     some ⟨count + 1, now + window_seconds⟩)

/-- A sequence of `_fixed_window` calls against one subject key. -/
def simFixedWindow (st : Option FixedWindowState) (maxR w : Nat) : List Nat → List Bool
  | [] => []
  | t :: ts =>
    let r := fixed_window st t maxR w
    r.fst.fst :: simFixedWindow r.snd maxR w ts

/-- C5 counterexample: with `limit=5, window=60`, five allowed calls at
`t = 59` (window `[0,60)`) leave a live counter with TTL until `t = 119`,
so a call at `t = 61` — which lies in the *next* window `[60,120)` — is
still denied, refuting "a call issued in the next window is allowed again"
(and with it the claim that the counter is keyed by the current window
boundary). -/
theorem fixed_window_next_window_counterexample :
    simFixedWindow none 5 60 [59, 59, 59, 59, 59, 61]
      = [true, true, true, true, true, false]
    ∧ 61 - 61 % 60 ≠ 59 - 59 % 60 := by decide

/-- C5 (amended): the counter is keyed by the subject alone; a request is
allowed iff the pre-increment count (0 for an absent or expired key) is
below the limit — so the 6th call on a live counter in one window is
denied; a denied call leaves the store untouched, an allowed call stores
`count+1` with a TTL of one full window from the call, and once the TTL of
the key has elapsed a call is allowed again; the reported reset time is
the current window boundary plus the window. -/
theorem fixed_window_characterisation (st : Option FixedWindowState)
    (now maxR w : Nat) (hm : 0 < maxR) :
    ((fixed_window st now maxR w).fst.fst = true ↔ preCount st now < maxR)
    ∧ ((fixed_window st now maxR w).fst.fst = false →
        (fixed_window st now maxR w).snd = st)
    ∧ ((fixed_window st now maxR w).fst.fst = true →
        (fixed_window st now maxR w).snd
          = some ⟨preCount st now + 1, now + w⟩)
    ∧ (∀ s, st = some s → s.expireAt ≤ now →
        (fixed_window st now maxR w).fst.fst = true)
    ∧ (fixed_window st now maxR w).fst.2.2 = now - now % w + w := by
  by_cases hc : maxR ≤ preCount st now
  · have he : fixed_window st now maxR w = ((false, 0, now - now % w + w), st) := by
      simp [fixed_window, hc]
    rw [he]
    refine ⟨by simpa using Nat.not_lt.mpr hc, fun _ => rfl, by simp, ?_, rfl⟩
    intro s hs hexp
    exfalso
    have h0 : preCount st now = 0 := by
      simp [preCount, redis_get_count, hs, Nat.not_lt.mpr hexp]
    omega
  · have hlt : preCount st now < maxR := Nat.not_le.1 hc
    have he : fixed_window st now maxR w
        = ((true, maxR - preCount st now - 1, now - now % w + w),
           some ⟨preCount st now + 1, now + w⟩) := by
      simp [fixed_window, hc]
    rw [he]
    exact ⟨by simpa using hlt, by simp, fun _ => rfl, fun s hs hexp => rfl, rfl⟩

/-- Witness for `fixed_window_characterisation` at a concrete state. -/
theorem fixed_window_characterisation_witness :
    ((fixed_window (some ⟨5, 119⟩) 61 5 60).fst.fst = true
      ↔ preCount (some ⟨5, 119⟩) 61 < 5)
    ∧ (fixed_window (some ⟨5, 119⟩) 61 5 60).fst.2.2 = 61 - 61 % 60 + 60 := by
  have h := fixed_window_characterisation (some ⟨5, 119⟩) 61 5 60 (by decide)
  exact ⟨h.1, h.2.2.2.2⟩

/-- `PasswordResetToken.query.filter_by(token=..., used=False).first()`. -/
def find_reset_token (db : Db) (tok : String) : Option PasswordResetToken :=
  db.resetTokens.find? (fun t => decide (t.token = tok) && !t.used)

/-- `AuthService.create_password_reset_token` from `app/auth/services.py`:
generic success message for an unknown email; otherwise mark every unused
grant of the account used and append a fresh one-hour grant (the fresh
token string and row id are parameters of the embedding, the source draws
them from `secrets.token_urlsafe`/`uuid4`). -/
def create_password_reset_token (db : Db) (now : Nat)
    (email newId tokenStr : String) :
    (Option PasswordResetToken × Bool × String) × Db :=
  let e := pyLower (pyStrip email)
  match find_user_by_email db (PyVal.str e) with
  | none =>
      ((none, true,
        "If an account exists with this email, a password reset link has been sent"),
       db)
  | some user =>
      let db1 : Db :=
        { db with resetTokens :=
            db.resetTokens.map (fun t =>
              if decide (t.user_id = user.id) && !t.used then { t with used := true }
              else t) }
      let rt : PasswordResetToken :=
        { id := newId, user_id := user.id, token := tokenStr,
          expires_at := now + 3600, used := false, created_at := now }
      ((some rt, true, "Password reset token created"),
       { db1 with resetTokens := db1.resetTokens ++ [rt] })

/-- The `/password-reset/request` route from `app/auth/routes.py`: whatever
the service reports, the route answers 200 with the same generic message. -/
def request_password_reset_route (db : Db) (now : Nat)
    (newId tokenStr email : String) : (Nat × String) × Db :=
  let r := create_password_reset_token db now email newId tokenStr
  ((200, "If an account exists with this email, a password reset link has been sent"),
   r.snd)

/-- Mark the first unused grant carrying this token string used (the
object `mark_as_used` mutates). -/
def markTokenUsed (db : Db) (token : String) : Db :=
  { db with resetTokens := replaceFirst (fun t => decide (t.token = token) && !t.used) PasswordResetToken.mark_as_used db.resetTokens }

/-- `AuthService.reset_password` from `app/auth/services.py`.
`validate_password` raises `ValidationError`, which is *not* a
`ValueError`, so it lands in the generic handler; a grant that is found
but invalid (expired) is marked used on the failure path; on success the
user's password is set and the grant marked used. -/
def reset_password (db : Db) (now : Nat) (token new_password : String) :
    (Bool × String) × Db :=
  match validate_password new_password with
  | .error _ => ((false, "An error occurred while resetting password"), db)
  | .ok _ =>
    match find_reset_token db token with
    | none => ((false, "Invalid or expired reset token"), db)
    | some rt =>
      if ¬ rt.is_valid now then
        ((false, "Invalid or expired reset token"), markTokenUsed db token)
      else
        match get_user_by_id db rt.user_id with
        | none => ((false, "An error occurred while resetting password"), db)
        | some user =>
          let user' := user.set_password new_password now
          let db1 := { db with users := replaceFirst (fun v => decide (v.id = user.id)) (fun _ => user') db.users }
          ((true, "Password reset successful"), markTokenUsed db1 token)

theorem replaceFirst_mem_of_find? (p : α → Bool) (f : α → α) (l : List α) (a : α)
    (h : l.find? p = some a) : f a ∈ replaceFirst p f l := by
  induction l with
  | nil => simp [List.find?] at h
  | cons x xs ih =>
    by_cases hx : p x
    · rw [List.find?_cons_of_pos _ hx] at h
      cases h
      simp [replaceFirst, hx]
    · rw [List.find?_cons_of_neg _ hx] at h
      simp only [replaceFirst, hx, if_neg, Bool.false_eq_true, not_false_eq_true,
        if_false, List.mem_cons]
      exact Or.inr (ih h)

/-- C10: calling `reset_password` with a grant that exists and is unused
but past its expiry fails with the invalid-or-expired message, and as a
side effect that grant is marked used in the store — the failure path
mutates the grant rather than leaving the store unchanged. -/
theorem expired_grant_marked_used (db : Db) (now : Nat) (tok newPw : String)
    (rt : PasswordResetToken)
    (hf : find_reset_token db tok = some rt)
    (hexp : rt.expires_at < now)
    (hpw : validate_password newPw = Except.ok newPw) :
    (reset_password db now tok newPw).fst = (false, "Invalid or expired reset token")
    ∧ (reset_password db now tok newPw).snd = markTokenUsed db tok
    ∧ { rt with used := true } ∈ ((reset_password db now tok newPw).snd).resetTokens := by
  have hinv : rt.is_valid now = false := by
    simp [PasswordResetToken.is_valid, hexp]
  have he : reset_password db now tok newPw
      = ((false, "Invalid or expired reset token"), markTokenUsed db tok) := by
    simp [reset_password, hpw, hf, hinv]
  rw [he]
  refine ⟨rfl, rfl, ?_⟩
  exact replaceFirst_mem_of_find? _ PasswordResetToken.mark_as_used db.resetTokens rt hf

/-- A store holding an account and one expired, unused reset grant. -/
def resetSampleDb : Db :=
  { users := [lockSampleUser],
    resetTokens := [{ id := "t1", user_id := "u1", token := "tok1",
                      expires_at := 50, used := false, created_at := 10 }] }

/-- Witness for `expired_grant_marked_used` at a concrete expired grant. -/
theorem expired_grant_marked_used_witness :
    (reset_password resetSampleDb 100 "tok1" "NewStr0ngPass!word").fst
      = (false, "Invalid or expired reset token")
    ∧ (reset_password resetSampleDb 100 "tok1" "NewStr0ngPass!word").snd
        = markTokenUsed resetSampleDb "tok1" := by
  have h := expired_grant_marked_used resetSampleDb 100 "tok1" "NewStr0ngPass!word"
    { id := "t1", user_id := "u1", token := "tok1", expires_at := 50,
      used := false, created_at := 10 }
    (by decide) (by decide) rfl
  exact ⟨h.1, h.2.1⟩

/-- C6: requesting a password reset for an unknown email yields exactly the
same route response as for a known one (no enumeration signal), and
confirming a reset with a grant that is missing, already used (the lookup
only finds unused grants), or past expiry fails with the
invalid-or-expired message and leaves every account's password unchanged. -/
theorem password_reset_no_enumeration_and_invalid_grant
    (db : Db) (now : Nat) (newId tokenStr e1 e2 : String) (u : User)
    (h1 : find_user_by_email db (PyVal.str (pyLower (pyStrip e1))) = none)
    (h2 : find_user_by_email db (PyVal.str (pyLower (pyStrip e2))) = some u)
    (tok newPw : String)
    (hpw : validate_password newPw = Except.ok newPw)
    (hbad : find_reset_token db tok = none
      ∨ ∃ rt, find_reset_token db tok = some rt ∧ rt.expires_at < now) :
    (request_password_reset_route db now newId tokenStr e1).fst
      = (request_password_reset_route db now newId tokenStr e2).fst
    ∧ (reset_password db now tok newPw).fst
        = (false, "Invalid or expired reset token")
    ∧ ((reset_password db now tok newPw).snd).users = db.users := by
  have hfail : (reset_password db now tok newPw).fst
        = (false, "Invalid or expired reset token")
      ∧ ((reset_password db now tok newPw).snd).users = db.users := by
    rcases hbad with hnone | ⟨rt, hrt, hexp⟩
    · simp [reset_password, hpw, hnone]
    · have hinv : rt.is_valid now = false := by
        simp [PasswordResetToken.is_valid, hexp]
      simp [reset_password, hpw, hrt, hinv, markTokenUsed]
  exact ⟨rfl, hfail.1, hfail.2⟩

/-- Witness for `password_reset_no_enumeration_and_invalid_grant` with a
known and an unknown email and a missing grant. -/
theorem password_reset_no_enumeration_witness :
    (request_password_reset_route lockSampleDb 100 "i1" "t1" "missing@example.com").fst
      = (request_password_reset_route lockSampleDb 100 "i1" "t1" "test@example.com").fst
    ∧ (reset_password lockSampleDb 100 "nope" "NewStr0ngPass!word").fst
        = (false, "Invalid or expired reset token") := by
  have h := password_reset_no_enumeration_and_invalid_grant lockSampleDb 100 "i1" "t1"
    "missing@example.com" "test@example.com"
    { lockSampleUser with locked_until := some 2000 }
    (by decide) (by decide) "nope" "NewStr0ngPass!word" rfl (Or.inl (by decide))
  exact ⟨h.1, h.2.1⟩

/-- The claims carried by an issued token (`sub` is kept separately as the
identity). -/
structure TokenClaims where
  role : Option String
  email : PyVal
  mfa_enabled : Bool
deriving DecidableEq, Repr

/-- Outcome of the refresh route: an HTTP error or a fresh access token. -/
inductive RefreshResult where
  | err (status : Nat) (error msg : String)
  | ok (identity : String) (claims : TokenClaims)
deriving DecidableEq, Repr

/-- The `/refresh` route from `app/auth/routes.py`: re-reads the account by
the token's identity and answers 401 unless it exists and is active; on
success the new access token's claims come from the freshly loaded
account, not from the presented token. -/
def refresh (db : Db) (tokenIdentity : String) (tokenClaims : TokenClaims) :
    RefreshResult :=
  match get_user_by_id db tokenIdentity with
  | none => .err 401 "Unauthorized" "User not found or inactive"
  | some user =>
    if ¬ user.is_active then .err 401 "Unauthorized" "User not found or inactive"
    else .ok user.id
      { role := some user.role.value, email := user.email,
        mfa_enabled := user.mfa_enabled }

/-- C8: whatever claims the refresh token carries, the refresh operation
re-reads the account at refresh time and fails with the 401 Unauthorized
response — issuing no access token — whenever the account no longer exists
or is inactive. -/
theorem refresh_requires_active_account (db : Db) (uid : String) (claims : TokenClaims)
    (h : get_user_by_id db uid = none
      ∨ ∃ u, get_user_by_id db uid = some u ∧ u.is_active = false) :
    refresh db uid claims = .err 401 "Unauthorized" "User not found or inactive"
    ∧ ∀ ident cl, refresh db uid claims ≠ .ok ident cl := by
  have he : refresh db uid claims = .err 401 "Unauthorized" "User not found or inactive" := by
    rcases h with hn | ⟨u, hu, hin⟩
    · simp [refresh, hn]
    · simp [refresh, hu, hin]
  refine ⟨he, ?_⟩
  intro ident cl hok
  rw [he] at hok
  exact RefreshResult.noConfusion hok

/-- A store whose only account is deactivated. -/
def inactiveSampleDb : Db :=
  { users := [{ lockSampleUser with is_active := false }], resetTokens := [] }

/-- Witness for `refresh_requires_active_account`: a structurally valid
token for a deactivated account is refused. -/
theorem refresh_requires_active_account_witness :
    refresh inactiveSampleDb "u1" ⟨some "CEO", PyVal.str "test@example.com", true⟩
      = RefreshResult.err 401 "Unauthorized" "User not found or inactive" :=
  (refresh_requires_active_account inactiveSampleDb "u1"
    ⟨some "CEO", PyVal.str "test@example.com", true⟩
    (Or.inr ⟨{ lockSampleUser with is_active := false }, by decide, rfl⟩)).1
